import Mathlib

/-
Shallow embedding of kern/thread/synch.c (OS/161 synchronization primitives):
counting semaphore (sem_create, sem_destroy, P, V), lock (lock_create,
lock_destroy, lock_acquire, lock_release, lock_do_i_hold) and condition
variable (cv_create, cv_destroy, cv_wait, cv_signal, cv_broadcast).

Modelling conventions:
- C `int` fields are Lean `Int`; pointers to threads are `Option Tid`
  (`none` = NULL); `curthread` is passed explicitly as `cur : Option Tid`.
- The global `in_interrupt` flag is passed explicitly as `inIntr : Int`.
- The interrupt-priority-level guard is modelled by a `Bool` "interrupts
  disabled" level: `splhigh()` saves the current level and sets it to
  disabled; `splx(saved)` restores the saved level.  Operations that
  raise/restore the level take the caller's level `spl0 : Bool` and return
  the level in force when they return.
- The external wait-queue facility keys queues by the primitive's address;
  each primitive instance here carries its own queue (`semQ`, `lockQ`,
  `cvQ`) and threads moved to the run queue are appended to `woken`.
- A fatal `assert` failure is `Except.error Halt.fatal`.  An operation that
  would sleep and can never be woken from the current state alone (the
  `while` loops in P and lock_acquire, seen as completed atomic operations)
  is `Except.error Halt.blocked`; a completed operation returns `.ok`.
-/

namespace Synch

/-- Thread identity (the value of the external `curthread` pointer when it
is not NULL). -/
abbrev Tid := Nat

/-- Outcome of a call that does not return normally: `fatal` for a failed
`assert`, `blocked` for an operation that sleeps and cannot complete from
the current state without other threads running. -/
inductive Halt where
  | fatal
  | blocked
deriving DecidableEq, Repr

/-- Translated from `struct semaphore` (synch.h): diagnostic name and a
signed count. -/
structure Semaphore where
  name : String
  count : Int
deriving DecidableEq, Repr

/-- A semaphore together with the external wait-queue facility's state for
its channel: `semQ` is the queue of threads sleeping on the semaphore's
address, `woken` accumulates threads moved back to the run queue. -/
structure SemSys where
  sem : Semaphore
  semQ : List Tid
  woken : List Tid
deriving DecidableEq, Repr

/-- Modelled from the spec: `wake_all(channel_identity)` of the wait-queue
facility (the kernel's `thread_wakeup`, not under src/) moves every queued
thread on that channel to runnable.  The spec uses it for `lock_release`
("wake all threads queued on the lock") and `cv_broadcast`, matching the
source's calls to `thread_wakeup`. -/
def wakeAll (q woken : List Tid) : List Tid × List Tid :=
  ([], woken ++ q)

/-- Modelled from the spec: `wake_one(channel_identity)` of the wait-queue
facility (the kernel's `thread_single_wakeup`, not under src/) moves the
first queued thread (if any) on that channel to runnable. -/
def wakeOne (q woken : List Tid) : List Tid × List Tid :=
  match q with
  | [] => ([], woken)
  | t :: rest => (rest, woken ++ [t])

/-- Modelled from the spec: `has_waiters(channel_identity) -> bool` of the
wait-queue facility (the kernel's `thread_hassleepers`, not under src/),
returned as a C int: nonzero iff some thread is queued on the channel. -/
def thread_hassleepers (q : List Tid) : Int :=
  if q = [] then 0 else 1

/-- Translated from `sem_create` (synch.c lines 17-37): asserts
`initial_count >= 0`, then returns a semaphore with `count = initial_count`.
(The kmalloc/kstrdup failure paths return NULL to the caller; we model the
successful allocation.) -/
def sem_create (namearg : String) (initial_count : Int) : Except Halt Semaphore :=
  if initial_count < 0 then .error .fatal
  else .ok { name := namearg, count := initial_count }

/-- Translated from `sem_destroy` (synch.c lines 39-60): under `splhigh`,
asserts `thread_hassleepers(sem) == 0`, then frees the semaphore. -/
def sem_destroy (s : SemSys) : Except Halt Unit :=
  if thread_hassleepers s.semQ = 0 then .ok () else .error .fatal

/-- Translated from `P` (synch.c lines 62-83): asserts `in_interrupt == 0`;
under `splhigh`, sleeps while `count == 0` (as a completed atomic operation:
`blocked` when the count is zero), then asserts `count > 0` and decrements. -/
def P (inIntr : Int) (s : SemSys) : Except Halt SemSys :=
  if inIntr ≠ 0 then .error .fatal
  else if s.sem.count = 0 then .error .blocked
  else if s.sem.count > 0 then
    .ok { s with sem := { s.sem with count := s.sem.count - 1 } }
  else .error .fatal

/-- Translated from `V` (synch.c lines 85-95): under `splhigh`, increments
`sem->count`, asserts `count > 0`, then calls `thread_wakeup(sem)` (wake all
threads queued on the semaphore's channel).  There is no `in_interrupt`
check in the source, so `inIntr` is ignored. -/
def V (_inIntr : Int) (s : SemSys) : Except Halt SemSys :=
  let c := s.sem.count + 1
  if c > 0 then
    let (q, w) := wakeAll s.semQ s.woken
    .ok { sem := { s.sem with count := c }, semQ := q, woken := w }
  else .error .fatal

/-- Claim C1 (as stated) is false: `V` wakes every thread queued on the
semaphore, not exactly one.  With two threads queued, both are moved to the
run queue by one call to `V`. -/
theorem C1_counterexample :
    V 0 ⟨⟨"s", 0⟩, [0, 1], []⟩ = .ok ⟨⟨"s", 1⟩, [], [0, 1]⟩ ∧
      ([0, 1] : List Tid).length ≠ 1 := by
  constructor
  · rfl
  · decide

/-- Claim C1 (amended): `V` increments `count` and then wakes every thread
queued on the semaphore (if any); `V` never blocks the caller. -/
theorem C1_amended_V_increments_and_wakes_all (inIntr : Int) (s : SemSys)
    (h : 0 ≤ s.sem.count) :
    V inIntr s =
      .ok { sem := { s.sem with count := s.sem.count + 1 }, semQ := [],
            woken := s.woken ++ s.semQ } ∧
    ∀ (i : Int) (s₂ : SemSys), V i s₂ ≠ .error .blocked := by
  constructor
  · simp only [V, wakeAll]
    rw [if_pos (by omega)]
  · intro i s₂
    simp only [V, wakeAll]
    split <;> simp

/-- Witness for C1 amended at a concrete semaphore. -/
theorem C1_amended_witness :
    V 0 ⟨⟨"s", 2⟩, [7], []⟩ =
      .ok { sem := ⟨"s", 3⟩, semQ := [], woken := [7] } ∧
    ∀ (i : Int) (s₂ : SemSys), V i s₂ ≠ .error .blocked := by
  have h := C1_amended_V_increments_and_wakes_all 0 ⟨⟨"s", 2⟩, [7], []⟩ (by decide)
  exact ⟨h.1, h.2⟩

/-- Translated from `struct lock` (synch.h): diagnostic name, the `flag`
int (nonzero iff held) and the `currentThread` pointer recording the
owner (`none` = NULL). -/
structure Lock where
  name : String
  flag : Int
  currentThread : Option Tid
deriving DecidableEq, Repr

/-- A lock together with the wait-queue facility's state for its channel. -/
structure LockSys where
  lock : Lock
  lockQ : List Tid
  woken : List Tid
deriving DecidableEq, Repr

/-- Translated from `lock_create` (synch.c lines 101-121): returns a lock
with `flag = 0` and `currentThread = NULL` (successful allocation path). -/
def lock_create (name : String) : Lock :=
  { name := name, flag := 0, currentThread := none }

/-- Translated from `lock_destroy` (synch.c lines 123-130): asserts
`lock != NULL`, then frees the name and the lock.  The source performs no
check of `flag`, `currentThread` or sleepers. -/
def lock_destroy (_s : LockSys) : Except Halt Unit :=
  .ok ()

/-- Translated from `lock_do_i_hold` (synch.c lines 170-178): returns 1 if
`lock->currentThread == curthread`, else 0.  The `flag` field is not
consulted. -/
def lock_do_i_hold (cur : Option Tid) (l : Lock) : Int :=
  if l.currentThread = cur then 1 else 0

/-- Translated from `lock_acquire` (synch.c lines 132-149): raises spl,
asserts `lock != NULL` and `in_interrupt == 0`, sleeps while `flag != 0`
(as a completed atomic operation: `blocked` when the lock is held), then
sets `flag = 1` and `currentThread = curthread` and restores spl.  Returns
the completed system state and the caller's interrupt level on return. -/
def lock_acquire (inIntr : Int) (cur : Option Tid) (spl0 : Bool) (s : LockSys) :
    Except Halt (LockSys × Bool) :=
  if inIntr ≠ 0 then .error .fatal
  else if s.lock.flag ≠ 0 then .error .blocked
  else .ok ({ s with lock := { s.lock with flag := 1, currentThread := cur } }, spl0)

/-- Translated from `lock_release` (synch.c lines 151-168): raises spl
(saving the caller's level `spl0`), asserts `lock != NULL` and
`in_interrupt == 0`; if `lock_do_i_hold(lock) == 0` it returns immediately
(without `splx`, so interrupts stay disabled: the returned level is
`true`); otherwise it clears `flag` and `currentThread`, calls
`thread_wakeup(lock)` (wake all), and restores spl to `spl0`. -/
def lock_release (inIntr : Int) (cur : Option Tid) (spl0 : Bool) (s : LockSys) :
    Except Halt (LockSys × Bool) :=
  if inIntr ≠ 0 then .error .fatal
  else if lock_do_i_hold cur s.lock = 0 then .ok (s, true)
  else
    let (q, w) := wakeAll s.lockQ s.woken
    .ok ({ lock := { s.lock with flag := 0, currentThread := none },
           lockQ := q, woken := w }, spl0)

/-- Translated from `struct cv` (synch.h): only a diagnostic name; the cv
has no state of its own beyond its identity as a wait channel. -/
structure CV where
  name : String
deriving DecidableEq, Repr

/-- A condition variable, the lock passed alongside it at each call, and
the wait-queue facility's state for the cv's channel. -/
structure CVSys where
  cv : CV
  lock : Lock
  cvQ : List Tid
  woken : List Tid
deriving DecidableEq, Repr

/-- Translated from `cv_create` (synch.c lines 185-202): returns a cv with
the given name (successful allocation path). -/
def cv_create (name : String) : CV :=
  { name := name }

/-- Translated from `cv_destroy` (synch.c lines 204-211): asserts
`cv != NULL`, then frees the name and the cv.  The source performs no
check of sleepers on the cv's channel. -/
def cv_destroy (_s : CVSys) : Except Halt Unit :=
  .ok ()

/-- Translated from `cv_signal` (synch.c lines 230-243): raises spl,
asserts `cv != NULL`, `lock != NULL` and `in_interrupt == 0`, calls
`thread_single_wakeup(cv)` (wake one), restores spl.  The lock argument is
never read or written beyond the NULL assert. -/
def cv_signal (inIntr : Int) (s : CVSys) : Except Halt CVSys :=
  if inIntr ≠ 0 then .error .fatal
  else
    let (q, w) := wakeOne s.cvQ s.woken
    .ok { s with cvQ := q, woken := w }

/-- Translated from `cv_broadcast` (synch.c lines 245-258): raises spl,
asserts `cv != NULL`, `lock != NULL` and `in_interrupt == 0`, calls
`thread_wakeup(cv)` (wake all), restores spl.  The lock argument is never
read or written beyond the NULL assert. -/
def cv_broadcast (inIntr : Int) (s : CVSys) : Except Halt CVSys :=
  if inIntr ≠ 0 then .error .fatal
  else
    let (q, w) := wakeAll s.cvQ s.woken
    .ok { s with cvQ := q, woken := w }

/-- Translated from the invariant claimed over `struct lock`: the `flag`
field is nonzero exactly when the recorded owner pointer is non-NULL. -/
def lockInv (l : Lock) : Prop :=
  l.flag ≠ 0 ↔ l.currentThread ≠ none

instance (l : Lock) : Decidable (lockInv l) := by
  unfold lockInv; infer_instance

/-- Claim C2 (as stated) is false: `lock_release`, `cv_signal` and
`cv_broadcast` each assert `in_interrupt == 0`, so a call made with
`in_interrupt` nonzero (here 1) hits a fatal assertion instead of
completing normally. -/
theorem C2_counterexample :
    lock_release 1 (some 0) false ⟨⟨"l", 1, some 0⟩, [], []⟩ = .error .fatal ∧
    cv_signal 1 ⟨⟨"c"⟩, ⟨"l", 0, none⟩, [3], []⟩ = .error .fatal ∧
    cv_broadcast 1 ⟨⟨"c"⟩, ⟨"l", 0, none⟩, [3], []⟩ = .error .fatal := by
  refine ⟨rfl, rfl, rfl⟩

/-- Claim C2 (amended): only `V` is safe to call from interrupt context
(it performs no `in_interrupt` check and completes normally); `lock_release`,
`cv_signal` and `cv_broadcast` assert `in_interrupt == 0` and fail fatally
for every call made with `in_interrupt` nonzero. -/
theorem C2_amended_interrupt_context (inIntr : Int) (hI : inIntr ≠ 0)
    (s : SemSys) (hs : 0 ≤ s.sem.count) (cur : Option Tid) (spl0 : Bool)
    (ls : LockSys) (cs : CVSys) :
    (∃ s₂, V inIntr s = .ok s₂) ∧
    lock_release inIntr cur spl0 ls = .error .fatal ∧
    cv_signal inIntr cs = .error .fatal ∧
    cv_broadcast inIntr cs = .error .fatal := by
  refine ⟨?_, ?_, ?_, ?_⟩
  · exact ⟨{ sem := { s.sem with count := s.sem.count + 1 }, semQ := [],
             woken := s.woken ++ s.semQ },
      by simp only [V, wakeAll]; rw [if_pos (by omega)]⟩
  · simp only [lock_release]
    rw [if_pos hI]
  · simp only [cv_signal]
    rw [if_pos hI]
  · simp only [cv_broadcast]
    rw [if_pos hI]

/-- Witness for C2 amended with `in_interrupt = 1` at concrete states. -/
theorem C2_amended_witness :
    (∃ s₂, V 1 ⟨⟨"s", 0⟩, [], []⟩ = .ok s₂) ∧
    lock_release 1 (some 0) false ⟨⟨"l", 1, some 0⟩, [], []⟩ = .error .fatal ∧
    cv_signal 1 ⟨⟨"c"⟩, ⟨"l", 0, none⟩, [], []⟩ = .error .fatal ∧
    cv_broadcast 1 ⟨⟨"c"⟩, ⟨"l", 0, none⟩, [], []⟩ = .error .fatal :=
  C2_amended_interrupt_context 1 (by decide) ⟨⟨"s", 0⟩, [], []⟩ (by decide)
    (some 0) false ⟨⟨"l", 1, some 0⟩, [], []⟩ ⟨⟨"c"⟩, ⟨"l", 0, none⟩, [], []⟩

/-- Claim C3 (as stated) is false for locks and cvs: `lock_destroy` on a
held lock with a queued waiter succeeds, and `cv_destroy` with a queued
waiter succeeds — neither performs any assertion-style rejection. -/
theorem C3_counterexample :
    lock_destroy ⟨⟨"l", 1, some 0⟩, [1], []⟩ = .ok () ∧
    cv_destroy ⟨⟨"c"⟩, ⟨"l", 0, none⟩, [2], []⟩ = .ok () :=
  ⟨rfl, rfl⟩

/-- Claim C3 (amended): destroying any of the three primitives with zero
waiters succeeds; `sem_destroy` with a waiter present is rejected by a
fatal assertion, but `lock_destroy` and `cv_destroy` perform no waiter or
held check and always succeed. -/
theorem C3_amended_destroy (s : SemSys) (ls : LockSys) (cs : CVSys) :
    (s.semQ = [] → sem_destroy s = .ok ()) ∧
    (s.semQ ≠ [] → sem_destroy s = .error .fatal) ∧
    lock_destroy ls = .ok () ∧
    cv_destroy cs = .ok () := by
  refine ⟨?_, ?_, rfl, rfl⟩
  · intro h
    simp [sem_destroy, thread_hassleepers, h]
  · intro h
    simp [sem_destroy, thread_hassleepers, h]

/-- Witness for C3 amended: an empty-queue semaphore is destroyed, one
with a waiter is rejected, and lock/cv destroys succeed. -/
theorem C3_amended_witness :
    sem_destroy ⟨⟨"s", 0⟩, [], []⟩ = .ok () ∧
    sem_destroy ⟨⟨"s", 0⟩, [4], []⟩ = .error .fatal ∧
    lock_destroy ⟨⟨"l", 0, none⟩, [], []⟩ = .ok () ∧
    cv_destroy ⟨⟨"c"⟩, ⟨"l", 0, none⟩, [], []⟩ = .ok () :=
  ⟨(C3_amended_destroy ⟨⟨"s", 0⟩, [], []⟩ ⟨⟨"l", 0, none⟩, [], []⟩
      ⟨⟨"c"⟩, ⟨"l", 0, none⟩, [], []⟩).1 rfl,
   (C3_amended_destroy ⟨⟨"s", 0⟩, [4], []⟩ ⟨⟨"l", 0, none⟩, [], []⟩
      ⟨⟨"c"⟩, ⟨"l", 0, none⟩, [], []⟩).2.1 (by decide),
   (C3_amended_destroy ⟨⟨"s", 0⟩, [], []⟩ ⟨⟨"l", 0, none⟩, [], []⟩
      ⟨⟨"c"⟩, ⟨"l", 0, none⟩, [], []⟩).2.2.1,
   (C3_amended_destroy ⟨⟨"s", 0⟩, [], []⟩ ⟨⟨"l", 0, none⟩, [], []⟩
      ⟨⟨"c"⟩, ⟨"l", 0, none⟩, [], []⟩).2.2.2⟩

/-- Claim C4: `lock_release` called (from normal context) by a thread that
is not the recorded owner returns `.ok` (no fatal assertion) and leaves the
whole lock system state — in particular `flag` and `currentThread` —
unchanged. -/
theorem C4_nonowner_release_noop (cur : Option Tid) (spl0 : Bool) (s : LockSys)
    (h : s.lock.currentThread ≠ cur) :
    lock_release 0 cur spl0 s = .ok (s, true) := by
  simp [lock_release, lock_do_i_hold, h]

/-- Witness for C4: thread 0 releases a lock owned by thread 1. -/
theorem C4_nonowner_release_noop_witness :
    lock_release 0 (some 0) false ⟨⟨"l", 1, some 1⟩, [], []⟩ =
      .ok (⟨⟨"l", 1, some 1⟩, [], []⟩, true) :=
  C4_nonowner_release_noop (some 0) false ⟨⟨"l", 1, some 1⟩, [], []⟩ (by decide)

/-- Claim C9: on the non-owner path `lock_release` returns with the
interrupt level still raised (`true` = all maskable interrupts disabled)
regardless of the caller's prior level `spl0`; on the owner path the prior
level `spl0` is restored before returning. -/
theorem C9_release_spl_leak (cur : Option Tid) (spl0 : Bool) (s : LockSys) :
    (s.lock.currentThread ≠ cur → lock_release 0 cur spl0 s = .ok (s, true)) ∧
    (s.lock.currentThread = cur →
      lock_release 0 cur spl0 s =
        .ok (⟨{ s.lock with flag := 0, currentThread := none },
              [], s.woken ++ s.lockQ⟩, spl0)) := by
  constructor
  · intro h
    simp [lock_release, lock_do_i_hold, h]
  · intro h
    simp [lock_release, lock_do_i_hold, h, wakeAll]

/-- Witness for C9: a non-owner call entered with interrupts enabled
(`spl0 = false`) returns with them disabled; an owner call returns with
`spl0 = false` restored. -/
theorem C9_release_spl_leak_witness :
    lock_release 0 (some 0) false ⟨⟨"l", 1, some 1⟩, [], []⟩ =
      .ok (⟨⟨"l", 1, some 1⟩, [], []⟩, true) ∧
    lock_release 0 (some 1) false ⟨⟨"l", 1, some 1⟩, [5], []⟩ =
      .ok (⟨⟨"l", 0, none⟩, [], [5]⟩, false) :=
  ⟨(C9_release_spl_leak (some 0) false ⟨⟨"l", 1, some 1⟩, [], []⟩).1 (by decide),
   (C9_release_spl_leak (some 1) false ⟨⟨"l", 1, some 1⟩, [5], []⟩).2 rfl⟩

/-- Claim C10: `lock_create` establishes `flag = 0` and owner `NULL`;
a completed `lock_acquire` by a (non-NULL) thread sets `flag = 1` and the
owner together; a completed `lock_release` preserves the invariant, and on
the owner path clears `flag` and owner together; `lock_do_i_hold` depends
only on the `currentThread` field (never on `flag`) and returns 1 exactly
when the recorded owner equals the calling thread. -/
theorem C10_lock_invariant (n : String) :
    lockInv (lock_create n) ∧
    (lock_create n).flag = 0 ∧ (lock_create n).currentThread = none ∧
    (∀ (t : Tid) (spl0 : Bool) (s s₂ : LockSys) (b : Bool),
      lock_acquire 0 (some t) spl0 s = .ok (s₂, b) →
        s₂.lock.flag = 1 ∧ s₂.lock.currentThread = some t ∧ lockInv s₂.lock) ∧
    (∀ (cur : Option Tid) (spl0 : Bool) (s s₂ : LockSys) (b : Bool),
      lockInv s.lock → lock_release 0 cur spl0 s = .ok (s₂, b) → lockInv s₂.lock) ∧
    (∀ (cur : Option Tid) (spl0 : Bool) (s s₂ : LockSys) (b : Bool),
      s.lock.currentThread = cur → lock_release 0 cur spl0 s = .ok (s₂, b) →
        s₂.lock.flag = 0 ∧ s₂.lock.currentThread = none) ∧
    (∀ (cur : Option Tid) (l₁ l₂ : Lock), l₁.currentThread = l₂.currentThread →
      lock_do_i_hold cur l₁ = lock_do_i_hold cur l₂) ∧
    (∀ (cur : Option Tid) (l : Lock), lock_do_i_hold cur l = 1 ↔ l.currentThread = cur) := by
  refine ⟨by simp [lockInv, lock_create], rfl, rfl, ?_, ?_, ?_, ?_, ?_⟩
  · intro t spl0 s s₂ b h
    simp only [lock_acquire] at h
    rw [if_neg (by decide)] at h
    by_cases hf : s.lock.flag ≠ 0
    · rw [if_pos hf] at h
      exact absurd h (by simp)
    · rw [if_neg hf] at h
      simp only [Except.ok.injEq, Prod.mk.injEq] at h
      obtain ⟨h₁, -⟩ := h
      rw [← h₁]
      refine ⟨rfl, rfl, ?_⟩
      simp [lockInv]
  · intro cur spl0 s s₂ b hInv h
    simp only [lock_release] at h
    rw [if_neg (by decide)] at h
    by_cases hd : lock_do_i_hold cur s.lock = 0
    · rw [if_pos hd] at h
      simp only [Except.ok.injEq, Prod.mk.injEq] at h
      obtain ⟨h₁, -⟩ := h
      rw [← h₁]
      exact hInv
    · rw [if_neg hd] at h
      simp only [wakeAll, Except.ok.injEq, Prod.mk.injEq] at h
      obtain ⟨h₁, -⟩ := h
      rw [← h₁]
      simp [lockInv]
  · intro cur spl0 s s₂ b hOwn h
    simp only [lock_release] at h
    rw [if_neg (by decide)] at h
    rw [if_neg (by simp [lock_do_i_hold, hOwn])] at h
    simp only [wakeAll, Except.ok.injEq, Prod.mk.injEq] at h
    obtain ⟨h₁, -⟩ := h
    rw [← h₁]
    exact ⟨rfl, rfl⟩
  · intro cur l₁ l₂ h
    simp [lock_do_i_hold, h]
  · intro cur l
    simp only [lock_do_i_hold]
    split
    · simp_all
    · simp_all

/-- Witness for C10 at a concrete acquire and owner release. -/
theorem C10_lock_invariant_witness :
    lockInv (lock_create ("l")) ∧
    (∃ s₂ b, lock_acquire 0 (some 3) false ⟨lock_create ("l"), [], []⟩ = .ok (s₂, b) ∧
      s₂.lock.flag = 1 ∧ s₂.lock.currentThread = some 3 ∧ lockInv s₂.lock) := by
  have h := C10_lock_invariant ("l")
  refine ⟨h.1, ⟨⟨⟨"l", 1, some 3⟩, [], []⟩, false, rfl, ?_⟩⟩
  exact h.2.2.2.1 3 false ⟨lock_create ("l"), [], []⟩ ⟨⟨"l", 1, some 3⟩, [], []⟩ false rfl

/-- Claim C8: from normal context, `cv_signal` wakes exactly the first
queued thread when one exists and is a no-op when the queue is empty;
`cv_broadcast` wakes every queued thread; neither operation modifies any
field of the lock argument (or of the cv). -/
theorem C8_signal_broadcast_frame (s : CVSys) :
    (∀ t rest, s.cvQ = t :: rest →
      cv_signal 0 s = .ok { s with cvQ := rest, woken := s.woken ++ [t] }) ∧
    (s.cvQ = [] → cv_signal 0 s = .ok s) ∧
    cv_broadcast 0 s = .ok { s with cvQ := [], woken := s.woken ++ s.cvQ } ∧
    (∀ s₂, cv_signal 0 s = .ok s₂ → s₂.lock = s.lock ∧ s₂.cv = s.cv) ∧
    (∀ s₂, cv_broadcast 0 s = .ok s₂ → s₂.lock = s.lock ∧ s₂.cv = s.cv) := by
  refine ⟨?_, ?_, ?_, ?_, ?_⟩
  · intro t rest h
    simp [cv_signal, wakeOne, h]
  · intro h
    obtain ⟨cv0, lk0, q0, w0⟩ := s
    simp only at h
    subst h
    simp [cv_signal, wakeOne]
  · simp [cv_broadcast, wakeAll]
  · intro s₂ h
    simp only [cv_signal, wakeOne] at h
    rw [if_neg (by decide)] at h
    rcases hq : s.cvQ with _ | ⟨t, rest⟩ <;> rw [hq] at h <;>
      simp only [Except.ok.injEq] at h <;> rw [← h] <;> exact ⟨rfl, rfl⟩
  · intro s₂ h
    simp only [cv_broadcast, wakeAll] at h
    rw [if_neg (by decide)] at h
    simp only [Except.ok.injEq] at h
    rw [← h]
    exact ⟨rfl, rfl⟩

/-- Witness for C8: signalling a two-waiter cv wakes only the first;
signalling an empty cv is a no-op; broadcast wakes both; the lock field is
unchanged in each case. -/
theorem C8_signal_broadcast_frame_witness :
    cv_signal 0 ⟨⟨"c"⟩, ⟨"l", 1, some 0⟩, [1, 2], []⟩ =
      .ok ⟨⟨"c"⟩, ⟨"l", 1, some 0⟩, [2], [1]⟩ ∧
    cv_signal 0 ⟨⟨"c"⟩, ⟨"l", 1, some 0⟩, [], []⟩ =
      .ok ⟨⟨"c"⟩, ⟨"l", 1, some 0⟩, [], []⟩ ∧
    cv_broadcast 0 ⟨⟨"c"⟩, ⟨"l", 1, some 0⟩, [1, 2], []⟩ =
      .ok ⟨⟨"c"⟩, ⟨"l", 1, some 0⟩, [], [1, 2]⟩ :=
  ⟨(C8_signal_broadcast_frame ⟨⟨"c"⟩, ⟨"l", 1, some 0⟩, [1, 2], []⟩).1 1 [2] rfl,
   (C8_signal_broadcast_frame ⟨⟨"c"⟩, ⟨"l", 1, some 0⟩, [], []⟩).2.1 rfl,
   (C8_signal_broadcast_frame ⟨⟨"c"⟩, ⟨"l", 1, some 0⟩, [1, 2], []⟩).2.2.1⟩

/-- A semaphore operation in a history of completed operations. -/
inductive SemOp where
  | opP
  | opV
deriving DecidableEq, Repr

/-- Number of completed decrements (`P`) in a history. -/
def countP : List SemOp → Nat
  | [] => 0
  | SemOp.opP :: rest => countP rest + 1
  | SemOp.opV :: rest => countP rest

/-- Number of completed increments (`V`) in a history. -/
def countV : List SemOp → Nat
  | [] => 0
  | SemOp.opP :: rest => countV rest
  | SemOp.opV :: rest => countV rest + 1

/-- One completed semaphore operation: the `P` or `V` of synch.c seen as
an atomic completed call (the interrupt-disabled section makes each one
atomic). -/
def semStep (inIntr : Int) (s : SemSys) : SemOp → Except Halt SemSys
  | SemOp.opP => P inIntr s
  | SemOp.opV => V inIntr s

/-- Run a history of completed semaphore operations. -/
def semRun (inIntr : Int) (s : SemSys) : List SemOp → Except Halt SemSys
  | [] => .ok s
  | op :: rest =>
    match semStep inIntr s op with
    | .ok s₂ => semRun inIntr s₂ rest
    | .error e => .error e

/-- A completed `P` requires a positive count and decrements it. -/
theorem semStep_opP_ok (inIntr : Int) (s s₁ : SemSys)
    (h : semStep inIntr s SemOp.opP = .ok s₁) :
    0 < s.sem.count ∧ s₁.sem.count = s.sem.count - 1 := by
  simp only [semStep, P] at h
  by_cases hi : inIntr ≠ 0
  · rw [if_pos hi] at h
    exact absurd h (by simp)
  · rw [if_neg hi] at h
    by_cases hz : s.sem.count = 0
    · rw [if_pos hz] at h
      exact absurd h (by simp)
    · rw [if_neg hz] at h
      by_cases hpos : s.sem.count > 0
      · rw [if_pos hpos] at h
        simp only [Except.ok.injEq] at h
        refine ⟨hpos, ?_⟩
        rw [← h]
      · rw [if_neg hpos] at h
        exact absurd h (by simp)

/-- A completed `V` increments the count. -/
theorem semStep_opV_ok (inIntr : Int) (s s₁ : SemSys)
    (h : semStep inIntr s SemOp.opV = .ok s₁) :
    s₁.sem.count = s.sem.count + 1 := by
  simp only [semStep, V, wakeAll] at h
  by_cases hpos : s.sem.count + 1 > 0
  · rw [if_pos hpos] at h
    simp only [Except.ok.injEq] at h
    rw [← h]
  · rw [if_neg hpos] at h
    exact absurd h (by simp)

/-- A successful run from a nonnegative count ends with a nonnegative count
and satisfies the counting identity
`final count + #P = initial count + #V`. -/
theorem semRun_ok_count (inIntr : Int) (ops : List SemOp) :
    ∀ s s₂, semRun inIntr s ops = .ok s₂ → 0 ≤ s.sem.count →
      0 ≤ s₂.sem.count ∧
        s₂.sem.count + (countP ops : Int) = s.sem.count + (countV ops : Int) := by
  induction ops with
  | nil =>
    intro s s₂ h h0
    simp only [semRun, Except.ok.injEq] at h
    subst h
    simpa [countP, countV] using h0
  | cons op rest ih =>
    intro s s₂ h h0
    rcases hop : semStep inIntr s op with e | s₁
    · rw [semRun, hop] at h
      exact absurd h (by simp)
    · rw [semRun, hop] at h
      cases op with
      | opP =>
        obtain ⟨hpos, hc⟩ := semStep_opP_ok inIntr s s₁ hop
        obtain ⟨hge, heq⟩ := ih s₁ s₂ h (by omega)
        simp only [countP, countV] at *
        push_cast at heq ⊢
        omega
      | opV =>
        have hc := semStep_opV_ok inIntr s s₁ hop
        obtain ⟨hge, heq⟩ := ih s₁ s₂ h (by omega)
        simp only [countP, countV] at *
        push_cast at heq ⊢
        omega

/-- A successful run of `pre ++ suf` has a successful run of the prefix
`pre`. -/
theorem semRun_append_ok (inIntr : Int) (pre : List SemOp) :
    ∀ (suf : List SemOp) (s s₂ : SemSys), semRun inIntr s (pre ++ suf) = .ok s₂ →
      ∃ s₁, semRun inIntr s pre = .ok s₁ := by
  induction pre with
  | nil =>
    intro suf s s₂ _
    exact ⟨s, rfl⟩
  | cons op rest ih =>
    intro suf s s₂ h
    rcases hop : semStep inIntr s op with e | s₁
    · rw [List.cons_append, semRun, hop] at h
      exact absurd h (by simp)
    · rw [List.cons_append, semRun, hop] at h
      obtain ⟨s₃, h₃⟩ := ih suf s₁ s₂ h
      exact ⟨s₃, by rw [semRun, hop]; exact h₃⟩

/-- Claim C5: starting from a semaphore created with count `c0 ≥ 0`, after
any prefix of a history of completed `P`/`V` operations the count is
nonnegative and the number of completed decrements never exceeds `c0` plus
the number of completed increments; moreover `P` blocks exactly when the
count is zero, and when the count is positive it decrements it once,
leaving a nonnegative count. -/
theorem C5_sem_count_invariant (nm : String) (c0 : Int) (q w : List Tid)
    (ops : List SemOp) (sFin : SemSys) (hc : 0 ≤ c0)
    (hrun : semRun 0 ⟨⟨nm, c0⟩, q, w⟩ ops = .ok sFin) :
    (∀ pre suf, ops = pre ++ suf →
      ∃ s₁, semRun 0 ⟨⟨nm, c0⟩, q, w⟩ pre = .ok s₁ ∧ 0 ≤ s₁.sem.count ∧
        (countP pre : Int) ≤ c0 + (countV pre : Int)) ∧
    (∀ s : SemSys, s.sem.count = 0 → P 0 s = .error .blocked) ∧
    (∀ s : SemSys, 0 < s.sem.count →
      P 0 s = .ok { s with sem := { s.sem with count := s.sem.count - 1 } } ∧
      0 ≤ s.sem.count - 1) := by
  refine ⟨?_, ?_, ?_⟩
  · intro pre suf hsplit
    subst hsplit
    obtain ⟨s₁, h₁⟩ := semRun_append_ok 0 pre suf _ sFin hrun
    obtain ⟨hge, heq⟩ := semRun_ok_count 0 pre _ s₁ h₁ (by simpa using hc)
    refine ⟨s₁, h₁, hge, ?_⟩
    simp only at heq
    omega
  · intro s h
    simp [P, h]
  · intro s h
    constructor
    · simp only [P]
      rw [if_neg (by decide), if_neg (by omega), if_pos (by omega)]
    · omega

/-- Witness for C5: the history `[V, P]` from initial count 0 runs to
completion; its prefix `[V]` leaves count 1 and satisfies the bound. -/
theorem C5_sem_count_invariant_witness :
    ∃ s₁, semRun 0 ⟨⟨"s", 0⟩, [], []⟩ [SemOp.opV] = .ok s₁ ∧ 0 ≤ s₁.sem.count ∧
      (countP [SemOp.opV] : Int) ≤ 0 + (countV [SemOp.opV] : Int) :=
  (C5_sem_count_invariant ("s") 0 [] [] [SemOp.opV, SemOp.opP] ⟨⟨"s", 0⟩, [], []⟩
    (by decide) rfl).1 [SemOp.opV] [SemOp.opP] rfl

/-- Wait-channel identities used by the three primitives (the source uses
each primitive instance's own address as its channel). -/
inductive Chan where
  | semCh
  | lockCh
  | cvCh
deriving DecidableEq, Repr

/-- One primitive action in the straight-line execution of a synch.c
function body: spl raise/restore, a field write, or a wait-queue call. -/
inductive Act where
  | splhighA
  | splxA
  | incCountA
  | setFlagA (v : Int)
  | setOwnerA (o : Option Tid)
  | wakeAllA (ch : Chan)
  | wakeOneA (ch : Chan)
  | sleepA (ch : Chan)
deriving DecidableEq, Repr

/-- Translated from `V` (synch.c lines 85-95): the action sequence of a
successful call — raise spl, `sem->count++`, `thread_wakeup(sem)`, restore
spl. -/
def Vtrace : List Act :=
  [Act.splhighA, Act.incCountA, Act.wakeAllA Chan.semCh, Act.splxA]

/-- Translated from `lock_release` (synch.c lines 151-168): the action
sequence of a call from normal context, where `holds` is the result of the
`lock_do_i_hold` test.  The owner path clears `flag` and `currentThread`,
calls `thread_wakeup(lock)` and restores spl; the non-owner path returns
right after the raise, with no further action. -/
def lock_releaseTrace (holds : Bool) : List Act :=
  if holds then
    [Act.splhighA, Act.setFlagA 0, Act.setOwnerA none,
     Act.wakeAllA Chan.lockCh, Act.splxA]
  else [Act.splhighA]

/-- Translated from `lock_acquire` (synch.c lines 132-149): the action
sequence of a completed call that slept `k` times in the
`while (lock->flag != 0)` loop before taking the lock. -/
def lock_acquireTrace (k : Nat) (cur : Option Tid) : List Act :=
  [Act.splhighA] ++ List.replicate k (Act.sleepA Chan.lockCh) ++
    [Act.setFlagA 1, Act.setOwnerA cur, Act.splxA]

/-- Translated from `cv_wait` (synch.c lines 213-228): raise spl, run
`lock_release(lock)`, `thread_sleep(cv)`, run `lock_acquire(lock)`,
restore spl. -/
def cv_waitTrace (holds : Bool) (k : Nat) (cur : Option Tid) : List Act :=
  [Act.splhighA] ++ lock_releaseTrace holds ++ [Act.sleepA Chan.cvCh] ++
    lock_acquireTrace k cur ++ [Act.splxA]

/-- The value of `sem->count` after a prefix of actions, starting from
`c0`. -/
def countAfter (c0 : Int) (tr : List Act) : Int :=
  tr.foldl (fun c a => match a with | Act.incCountA => c + 1 | _ => c) c0

/-- The value of `lock->flag` after a prefix of actions, starting from
`f0`. -/
def flagAfter (f0 : Int) (tr : List Act) : Int :=
  tr.foldl (fun f a => match a with | Act.setFlagA v => v | _ => f) f0

/-- The value of `lock->currentThread` after a prefix of actions, starting
from `o0`. -/
def ownerAfter (o0 : Option Tid) (tr : List Act) : Option Tid :=
  tr.foldl (fun o a => match a with | Act.setOwnerA v => v | _ => o) o0

/-- One step of the interrupt-level guard: `splhigh` saves the current
level and disables interrupts; `splx` restores the matching saved level.
All traces built above are well-nested, so the save stack never
underflows. -/
def splStep : Bool × List Bool → Act → Bool × List Bool
  | (d, st), Act.splhighA => (true, d :: st)
  | (_, st), Act.splxA =>
    match st with
    | [] => (false, [])
    | d0 :: rest => (d0, rest)
  | s, _ => s

/-- Whether interrupts are disabled after a prefix of actions, starting
from level `d0` (`true` = disabled). -/
def disabledAfter (d0 : Bool) (tr : List Act) : Bool :=
  (tr.foldl splStep (d0, [])).1

/-- Claim C6: in `V` the count increment (action 1) precedes the wake
(action 2), and the count observed at the wake is positive; in the owner
path of `lock_release` the flag clear (action 1) and owner clear (action 2)
precede the wake (action 3), and the flag and owner observed at the wake
are 0 and NULL. -/
theorem C6_update_before_wake (c0 f0 : Int) (o0 : Option Tid) (hc : 0 ≤ c0) :
    Vtrace.take 2 = [Act.splhighA, Act.incCountA] ∧
    Vtrace[2]? = some (Act.wakeAllA Chan.semCh) ∧
    0 < countAfter c0 (Vtrace.take 2) ∧
    (lock_releaseTrace true).take 3 =
      [Act.splhighA, Act.setFlagA 0, Act.setOwnerA none] ∧
    (lock_releaseTrace true)[3]? = some (Act.wakeAllA Chan.lockCh) ∧
    flagAfter f0 ((lock_releaseTrace true).take 3) = 0 ∧
    ownerAfter o0 ((lock_releaseTrace true).take 3) = none := by
  refine ⟨rfl, rfl, ?_, rfl, rfl, rfl, rfl⟩
  show 0 < c0 + 1
  omega

/-- Witness for C6 at count 0, flag 1 and owner thread 4. -/
theorem C6_update_before_wake_witness :
    0 < countAfter 0 (Vtrace.take 2) ∧
    flagAfter 1 ((lock_releaseTrace true).take 3) = 0 ∧
    ownerAfter (some 4) ((lock_releaseTrace true).take 3) = none :=
  ⟨(C6_update_before_wake 0 1 (some 4) (by decide)).2.2.1,
   (C6_update_before_wake 0 1 (some 4) (by decide)).2.2.2.2.2.1,
   (C6_update_before_wake 0 1 (some 4) (by decide)).2.2.2.2.2.2⟩

/-- Claim C7: in `cv_wait` called by the lock's owner, the first 8 actions
are: raise spl, then (inside `lock_release`) raise, clear flag, clear
owner, wake the lock channel, restore, then the sleep on the cv's channel,
then the raise inside `lock_acquire`.  Interrupts are disabled at every
point from the lock clear (action 2) through the sleep (action 6), for any
prior interrupt level, so no wakeup can intervene between the release and
the block; and everything after action 7 is the reacquisition: `k` sleeps
on the lock channel, then setting the flag and owner back, before the two
restores that end the call. -/
theorem C7_cv_wait_atomic (k : Nat) (cur : Option Tid) (d0 : Bool) :
    (cv_waitTrace true k cur).take 8 =
      [Act.splhighA, Act.splhighA, Act.setFlagA 0, Act.setOwnerA none,
       Act.wakeAllA Chan.lockCh, Act.splxA, Act.sleepA Chan.cvCh,
       Act.splhighA] ∧
    (cv_waitTrace true k cur).drop 8 =
      List.replicate k (Act.sleepA Chan.lockCh) ++
        [Act.setFlagA 1, Act.setOwnerA cur, Act.splxA, Act.splxA] ∧
    (∀ i, 2 ≤ i → i ≤ 6 →
      disabledAfter d0 ((cv_waitTrace true k cur).take i) = true) := by
  refine ⟨rfl, ?_, ?_⟩
  · show (List.replicate k (Act.sleepA Chan.lockCh) ++
        [Act.setFlagA 1, Act.setOwnerA cur, Act.splxA]) ++ [Act.splxA] =
      List.replicate k (Act.sleepA Chan.lockCh) ++
        [Act.setFlagA 1, Act.setOwnerA cur, Act.splxA, Act.splxA]
    rw [List.append_assoc]
    rfl
  · intro i h2 h6
    interval_cases i <;> rfl

/-- Witness for C7 with one acquire-loop sleep, thread 2, and interrupts
initially enabled. -/
theorem C7_cv_wait_atomic_witness :
    (cv_waitTrace true 1 (some 2)).drop 8 =
      List.replicate 1 (Act.sleepA Chan.lockCh) ++
        [Act.setFlagA 1, Act.setOwnerA (some 2), Act.splxA, Act.splxA] ∧
    disabledAfter false ((cv_waitTrace true 1 (some 2)).take 6) = true :=
  ⟨(C7_cv_wait_atomic 1 (some 2) false).2.1,
   (C7_cv_wait_atomic 1 (some 2) false).2.2 6 (by decide) (by decide)⟩

end Synch
